import Mathlib

/-!
Verification of the distributed index-partitioning and collective-communication
layer of the dolfin repository, as implemented in src/dolfin/main/MPI.cpp and
src/dolfin/mesh/LocalMeshData.cpp.

The pure index partitioner (dolfin::MPI::local_range, dolfin::MPI::index_owner)
is embedded directly.  The source's functions read the ambient rank and process
count (process_number(), num_processes()); here they are explicit arguments
`rank` and `P`.  The collectives (scatter, gather, global_maximum) are embedded
at the level of a whole job: the argument `world` holds one entry per rank (the
`values` argument that rank passes), and the result holds every rank's outcome
together with the list of fabric (MPI library) operations the call issues.
A dolfin `error(...)` call and a failed `assert` both abort the job; they are
modelled as `Except.error` with the error taxonomy the specification names
(OutOfRange for the index assert, SizeMismatch for the collective length
contract).  `MPI_Scatter` itself is external to the repository; it is modelled
from the MPI standard's contract for identical send/receive datatypes.
-/

namespace dolfin

/-- Fatal error conditions: OutOfRange and SizeMismatch are the spec's taxonomy
for the source's `assert(index < N)` and collective length checks; Truncate and
BufferOverrun model an erroneous MPI_Scatter call (send/receive count mismatch,
send buffer smaller than what the root must read); FabricRequired models the
`error("... requires MPI.")` calls of the no-MPI build; ShouldNotBeCalled models
`error("This should not be called")` in LocalMeshData's mesh constructor. -/
inductive MPIError where
  | OutOfRange
  | SizeMismatch
  | Truncate
  | BufferOverrun
  | FabricRequired
  | ShouldNotBeCalled
deriving DecidableEq

/-- Operations on the communication fabric: duplicating and freeing the
communicator (MPICommunicator's constructor/destructor, MPI.cpp:23-31) and the
MPI collective calls themselves. -/
inductive FabricOp where
  | commDup
  | scatterCall
  | allgatherCall
  | allreduceCall
  | commFree
deriving DecidableEq

instance {e a : Type} [DecidableEq e] [DecidableEq a] : DecidableEq (Except e a) := fun x y =>
  match x, y with
  | Except.error u, Except.error v =>
    if h : u = v then isTrue (by rw [h]) else isFalse (fun hh => by cases hh; exact h rfl)
  | Except.error _, Except.ok _ => isFalse (fun hh => Except.noConfusion hh)
  | Except.ok _, Except.error _ => isFalse (fun hh => Except.noConfusion hh)
  | Except.ok u, Except.ok v =>
    if h : u = v then isTrue (by rw [h]) else isFalse (fun hh => by cases hh; exact h rfl)

/-- Outcome of one collective call across the whole job: the per-rank result
(or the fatal error that aborts the job) and the fabric operations issued. -/
structure CollectiveOutcome (a : Type) where
  result : Except MPIError a
  ops : List FabricOp

namespace MPI

/-- dolfin::MPI::local_range (MPI.cpp:247-271).  The source computes
`n = N / num_processes, r = N % num_processes` and branches on
`process_number < r`; here `P` is num_processes() and `rank` is
process_number(). -/
def local_range (N P rank : Nat) : Nat × Nat :=
  if rank < N % P then
    (rank * (N / P + 1), rank * (N / P + 1) + (N / P + 1))
  else
    (rank * (N / P) + N % P, rank * (N / P) + N % P + (N / P))

/-- The rank computation of dolfin::MPI::index_owner (MPI.cpp:273-290) after
its `assert(index < N)`: with `n = N / P, r = N % P`, the first `r` processes
own `n + 1` indices, the remaining ones own `n`. -/
def owner_calc (index N P : Nat) : Nat :=
  if index < (N % P) * (N / P + 1) then
    index / (N / P + 1)
  else
    N % P + (index - (N % P) * (N / P + 1)) / (N / P)

/-- dolfin::MPI::index_owner (MPI.cpp:273-290); the failed `assert(index < N)`
is the spec taxonomy's OutOfRange. -/
def index_owner (index N P : Nat) : Except MPIError Nat :=
  if index < N then Except.ok (owner_calc index N P) else Except.error MPIError.OutOfRange

/-- dolfin::MPI::is_broadcaster (MPI.cpp:50-54):
`num_processes() > 1 && process_number() == 0`. -/
def is_broadcaster (P rank : Nat) : Bool :=
  decide (1 < P) && rank == 0

/-- dolfin::MPI::is_receiver (MPI.cpp:56-60):
`num_processes() > 1 && process_number() > 0`. -/
def is_receiver (P rank : Nat) : Bool :=
  decide (1 < P) && decide (0 < rank)

/-- Modelled from the MPI standard's contract for MPI_Scatter with identical
send and receive datatypes (the call is external to the repository): the root
sends `sendcount` elements to each of the `P` ranks, rank `rk` receiving the
chunk of the send buffer starting at `rk * sendcount`; the amount sent to a
rank must equal the amount it receives (`recvcount`), otherwise the call is
erroneous (truncation), and the root must be able to read `P * sendcount`
elements from its send buffer. -/
def MPI_Scatter (sendbuf : List Nat) (sendcount recvcount P : Nat) :
    Except MPIError (List (List Nat)) :=
  if sendcount ≠ recvcount then
    Except.error MPIError.Truncate
  else if sendbuf.length < P * sendcount then
    Except.error MPIError.BufferOverrun
  else
    Except.ok ((List.range P).map (fun rk =>
      (List.range recvcount).map (fun j => sendbuf.getD (rk * sendcount + j) 0)))

/-- dolfin::MPI::scatter (MPI.cpp:74-123), job-level.  `world` holds each
rank's `values` on entry.  Every rank first constructs an MPICommunicator
(commDup); the sending rank then checks `values.size() == num_processes()`
(`error(...)`, the spec's SizeMismatch, on failure, after which destruction
frees the communicator), builds its send buffer from `values`, and all ranks
call MPI_Scatter with sendcount `values.size()` on the root and recvcount 1;
finally each rank's `values` is cleared and the single received value pushed,
so each rank's entry of the result is what MPI_Scatter delivered to it. -/
def scatter (world : List (List Nat)) (sending_process : Nat) :
    CollectiveOutcome (List (List Nat)) :=
  let P := world.length
  let values := world.getD sending_process []
  if values.length ≠ P then
    { result := Except.error MPIError.SizeMismatch
      ops := [FabricOp.commDup, FabricOp.commFree] }
  else
    match MPI_Scatter values values.length 1 P with
    | Except.error e =>
        { result := Except.error e
          ops := [FabricOp.commDup, FabricOp.scatterCall] }
    | Except.ok received =>
        { result := Except.ok received
          ops := [FabricOp.commDup, FabricOp.scatterCall, FabricOp.commFree] }

/-- dolfin::MPI::gather (MPI.cpp:173-194), job-level.  Each rank asserts
`values.size() == num_processes()` (before any fabric operation), contributes
`values[process_number()]`, and MPI_Allgather (called with matching counts 1/1)
delivers the rank-ordered contributions to every rank; the copy loop then
replaces every entry of each rank's `values` in place. -/
def gather (world : List (List Nat)) : CollectiveOutcome (List (List Nat)) :=
  let P := world.length
  if ∀ v ∈ world, v.length = P then
    let contribs := (List.range P).map (fun rk => (world.getD rk []).getD rk 0)
    { result := Except.ok (world.map (fun _ => contribs))
      ops := [FabricOp.commDup, FabricOp.allgatherCall, FabricOp.commFree] }
  else
    { result := Except.error MPIError.SizeMismatch, ops := [] }

/-- dolfin::MPI::global_maximum (MPI.cpp:196-203), job-level: each rank
contributes one value, MPI_Allreduce with MPI_MAX delivers the maximum of all
contributions to every rank. -/
def global_maximum (world : List Nat) : CollectiveOutcome (List Nat) :=
  { result := Except.ok (world.map (fun _ => world.foldr Nat.max 0))
    ops := [FabricOp.commDup, FabricOp.allreduceCall, FabricOp.commFree] }

/-- dolfin::MPI::gather of the no-MPI build (MPI.cpp:328-331): it calls
`error("MPI::gather() requires MPI.")` unconditionally. -/
def gatherNoMPI (_values : List Nat) : Except MPIError (List Nat) :=
  Except.error MPIError.FabricRequired

/-- dolfin::MPI::global_maximum of the no-MPI build (MPI.cpp:333-337): it
calls `error("MPI::global_maximum() requires MPI.")` unconditionally. -/
def globalMaximumNoMPI (_size : Nat) : Except MPIError Nat :=
  Except.error MPIError.FabricRequired

end MPI

/-- Membership of a global index in a half-open range `[first, second)`. -/
def inRange (i : Nat) (p : Nat × Nat) : Prop :=
  p.1 ≤ i ∧ i < p.2

instance (i : Nat) (p : Nat × Nat) : Decidable (inRange i p) :=
  inferInstanceAs (Decidable (p.1 ≤ i ∧ i < p.2))

/-- The number of indices a rank's local range holds. -/
def rangeSize (N P rank : Nat) : Nat :=
  (MPI.local_range N P rank).2 - (MPI.local_range N P rank).1

/-- The first index of `rank`'s range, in closed form: the ranges are the
consecutive blocks `[rankStart rank, rankStart (rank+1))`. -/
def rankStart (N P rank : Nat) : Nat :=
  rank * (N / P) + min rank (N % P)

/-- A vertex as the mesh-extraction step reads it from the serial mesh
(LocalMeshData.cpp:74-85): a coordinate accessor (`vertex->x()`, read at the
first `gdim` positions) and a global index (`vertex->index()`). -/
structure MeshVertex where
  coords : Nat → Int
  index : Nat

/-- The serial mesh as LocalMeshData::extract_mesh_data consumes it: geometric
and topological dimension, the vertex sequence, and the cell sequence, each
cell its incident vertex global indices (`cell->entities(0)`). -/
structure Mesh where
  gdim : Nat
  tdim : Nat
  vertices : List MeshVertex
  cells : List (List Nat)

/-- The data members of dolfin::LocalMeshData. -/
structure LocalMeshData where
  vertex_coordinates : List (List Int)
  vertex_indices : List Nat
  cell_vertices : List (List Nat)
  num_global_vertices : Nat
  num_global_cells : Nat
  gdim : Nat
  tdim : Nat
deriving DecidableEq

/-- The default constructor LocalMeshData::LocalMeshData()
(LocalMeshData.cpp:19-24): counts and dimensions zero, vectors empty. -/
def LocalMeshData.empty : LocalMeshData :=
  { vertex_coordinates := []
    vertex_indices := []
    cell_vertices := []
    num_global_vertices := 0
    num_global_cells := 0
    gdim := 0
    tdim := 0 }

/-- LocalMeshData::clear (LocalMeshData.cpp:50-59). -/
def LocalMeshData.clear (d : LocalMeshData) : LocalMeshData :=
  { d with
    vertex_coordinates := []
    vertex_indices := []
    cell_vertices := []
    num_global_vertices := 0
    num_global_cells := 0
    gdim := 0
    tdim := 0 }

/-- LocalMeshData::extract_mesh_data (LocalMeshData.cpp:61-98): clears the old
data, sets the scalars from the mesh, then walks the vertex iterator twice
(coordinates at indices 0..gdim-1, then global indices) and the cell iterator
once (copying each cell's `num_entities(0)` vertex indices position by
position). -/
def extract_mesh_data (d : LocalMeshData) (mesh : Mesh) : LocalMeshData :=
  let d0 := d.clear
  { d0 with
    gdim := mesh.gdim
    tdim := mesh.tdim
    num_global_vertices := mesh.vertices.length
    num_global_cells := mesh.cells.length
    vertex_coordinates :=
      mesh.vertices.map (fun v => (List.range mesh.gdim).map (fun i => v.coords i))
    vertex_indices := mesh.vertices.map (fun v => v.index)
    cell_vertices :=
      mesh.cells.map (fun c => (List.range c.length).map (fun i => c.getD i 0)) }

/-- LocalMeshData::broadcast_mesh_data (LocalMeshData.cpp:100-106): the body is
empty, so the record is untouched and nothing is sent. -/
def broadcast_mesh_data (d : LocalMeshData) : LocalMeshData :=
  d

/-- LocalMeshData::receive_mesh_data (LocalMeshData.cpp:108-112): the body is
empty, so the default-constructed record is returned unchanged and nothing is
received. -/
def receive_mesh_data (d : LocalMeshData) : LocalMeshData :=
  d

/-- The mesh constructor LocalMeshData::LocalMeshData(const Mesh&)
(LocalMeshData.cpp:26-43): its first statement is
`error("This should not be called")`, which throws, so the constructor fails
unconditionally before the broadcaster/receiver branch is reached. -/
def LocalMeshData.fromMesh (_P _rank : Nat) (_mesh : Mesh) : Except MPIError LocalMeshData :=
  Except.error MPIError.ShouldNotBeCalled

/-- A concrete three-vertex, one-cell mesh used as test input. -/
def meshEx : Mesh :=
  { gdim := 2
    tdim := 2
    vertices := [⟨fun k => Int.ofNat k, 0⟩, ⟨fun k => Int.ofNat (k + 1), 1⟩,
                 ⟨fun k => Int.ofNat (2 * k), 2⟩]
    cells := [[0, 1, 2]] }

lemma local_range_eq_rankStart (N P rank : Nat) :
    MPI.local_range N P rank = (rankStart N P rank, rankStart N P (rank + 1)) := by
  unfold MPI.local_range rankStart
  by_cases h : rank < N % P
  · rw [if_pos h, min_eq_left (Nat.le_of_lt h), min_eq_left (Nat.succ_le_of_lt h)]
    have e1 : rank * (N / P + 1) = rank * (N / P) + rank := Nat.mul_succ rank (N / P)
    have e2 : (rank + 1) * (N / P) = rank * (N / P) + N / P := Nat.succ_mul rank (N / P)
    refine Prod.ext ?_ ?_
    · simp only []
      omega
    · simp only []
      omega
  · rw [if_neg h]
    have hle : N % P ≤ rank := Nat.le_of_not_lt h
    rw [min_eq_right hle, min_eq_right (Nat.le_succ_of_le hle)]
    have e2 : (rank + 1) * (N / P) = rank * (N / P) + N / P := Nat.succ_mul rank (N / P)
    refine Prod.ext rfl ?_
    simp only []
    omega

lemma rankStart_mono (N P : Nat) {a b : Nat} (h : a ≤ b) :
    rankStart N P a ≤ rankStart N P b :=
  Nat.add_le_add (mul_le_mul_right' h _) (min_le_min h (le_refl _))

lemma rankStart_zero (N P : Nat) : rankStart N P 0 = 0 := by
  simp [rankStart]

lemma rankStart_last (N P : Nat) (hP : 0 < P) : rankStart N P P = N := by
  unfold rankStart
  have hrP : N % P < P := Nat.mod_lt N hP
  rw [min_eq_right (Nat.le_of_lt hrP)]
  have hd : P * (N / P) + N % P = N := Nat.div_add_mod N P
  have e : P * (N / P) = N / P * P := Nat.mul_comm P (N / P)
  omega

lemma inRange_local_range (N P rank i : Nat) :
    inRange i (MPI.local_range N P rank) ↔
      rankStart N P rank ≤ i ∧ i < rankStart N P (rank + 1) := by
  rw [local_range_eq_rankStart]
  exact Iff.rfl

lemma owner_bounds_case1 (n r i : Nat) (h : i < r * (n + 1)) :
    i / (n + 1) < r ∧
    (i / (n + 1)) * n + i / (n + 1) ≤ i ∧
    i < (i / (n + 1) + 1) * n + (i / (n + 1) + 1) := by
  have hq : i / (n + 1) < r := (Nat.div_lt_iff_lt_mul (Nat.succ_pos n)).mpr h
  have hl : (i / (n + 1)) * (n + 1) ≤ i := Nat.div_mul_le_self i (n + 1)
  have hu : i < (i / (n + 1)) * (n + 1) + (n + 1) := by
    have hdm := Nat.div_add_mod i (n + 1)
    have hm : i % (n + 1) < n + 1 := Nat.mod_lt i (Nat.succ_pos n)
    have hc : (n + 1) * (i / (n + 1)) = (i / (n + 1)) * (n + 1) := Nat.mul_comm _ _
    omega
  have e1 : (i / (n + 1)) * (n + 1) = (i / (n + 1)) * n + i / (n + 1) :=
    Nat.mul_succ _ n
  have e2 : (i / (n + 1) + 1) * n = (i / (n + 1)) * n + n := Nat.succ_mul _ n
  exact ⟨hq, by omega, by omega⟩

lemma owner_bounds_case2 (n r P i : Nat) (hn : 0 < n) (hrP : r < P)
    (hge : r * (n + 1) ≤ i) (hi : i < P * n + r) :
    r + (i - r * (n + 1)) / n < P ∧
    (r + (i - r * (n + 1)) / n) * n + r ≤ i ∧
    i < (r + (i - r * (n + 1)) / n + 1) * n + r := by
  have hq1 : ((i - r * (n + 1)) / n) * n ≤ i - r * (n + 1) :=
    Nat.div_mul_le_self _ n
  have hq2 : i - r * (n + 1) < ((i - r * (n + 1)) / n) * n + n := by
    have hdm := Nat.div_add_mod (i - r * (n + 1)) n
    have hm : (i - r * (n + 1)) % n < n := Nat.mod_lt _ hn
    have hc : n * ((i - r * (n + 1)) / n) = ((i - r * (n + 1)) / n) * n :=
      Nat.mul_comm _ _
    omega
  have hqP : (i - r * (n + 1)) / n < P - r := by
    rw [Nat.div_lt_iff_lt_mul hn]
    have e1 : (P - r) * n = P * n - r * n := Nat.sub_mul P r n
    have e2 : r * (n + 1) = r * n + r := Nat.mul_succ r n
    have e3 : r * n ≤ P * n := mul_le_mul_right' (Nat.le_of_lt hrP) n
    omega
  have e4 : (r + (i - r * (n + 1)) / n) * n = r * n + ((i - r * (n + 1)) / n) * n :=
    Nat.add_mul r _ n
  have e5 : (r + (i - r * (n + 1)) / n + 1) * n =
      (r + (i - r * (n + 1)) / n) * n + n := Nat.succ_mul _ n
  have e2 : r * (n + 1) = r * n + r := Nat.mul_succ r n
  refine ⟨by omega, by omega, by omega⟩

/-- index_owner's computed rank lies below P and its range contains the index. -/
lemma owner_spec (i N P : Nat) (hP : 0 < P) (hi : i < N) :
    MPI.owner_calc i N P < P ∧ inRange i (MPI.local_range N P (MPI.owner_calc i N P)) := by
  have hd : P * (N / P) + N % P = N := Nat.div_add_mod N P
  have hrP : N % P < P := Nat.mod_lt N hP
  unfold MPI.owner_calc
  by_cases hc : i < (N % P) * (N / P + 1)
  · rw [if_pos hc]
    obtain ⟨hq, hl, hu⟩ := owner_bounds_case1 (N / P) (N % P) i hc
    refine ⟨Nat.lt_trans hq hrP, ?_⟩
    rw [inRange_local_range]
    constructor
    · unfold rankStart
      rw [min_eq_left (Nat.le_of_lt hq)]
      exact hl
    · unfold rankStart
      rw [min_eq_left (Nat.succ_le_of_lt hq)]
      exact hu
  · rw [if_neg hc]
    have hge : (N % P) * (N / P + 1) ≤ i := Nat.le_of_not_lt hc
    have hn : 0 < N / P := by
      rcases Nat.eq_zero_or_pos (N / P) with hz | hz
      · exfalso
        rw [hz] at hd hge
        omega
      · exact hz
    obtain ⟨hwP, hl, hu⟩ :=
      owner_bounds_case2 (N / P) (N % P) P i hn hrP hge (by omega)
    refine ⟨hwP, ?_⟩
    rw [inRange_local_range]
    constructor
    · unfold rankStart
      rw [min_eq_right (Nat.le_add_right _ _)]
      exact hl
    · unfold rankStart
      rw [min_eq_right ((Nat.le_add_right _ _).trans (Nat.le_succ _))]
      exact hu

/-- Two ranks whose local ranges both contain an index are equal. -/
lemma inRange_unique (N P i rk1 rk2 : Nat)
    (h1 : inRange i (MPI.local_range N P rk1))
    (h2 : inRange i (MPI.local_range N P rk2)) : rk1 = rk2 := by
  rw [inRange_local_range] at h1 h2
  rcases Nat.lt_trichotomy rk1 rk2 with h | h | h
  · exfalso
    have hm := rankStart_mono N P (show rk1 + 1 ≤ rk2 from h)
    omega
  · exact h
  · exfalso
    have hm := rankStart_mono N P (show rk2 + 1 ≤ rk1 from h)
    omega

lemma rangeSize_lt (N P rank : Nat) (h : rank < N % P) :
    rangeSize N P rank = N / P + 1 := by
  unfold rangeSize MPI.local_range
  rw [if_pos h]
  show rank * (N / P + 1) + (N / P + 1) - rank * (N / P + 1) = N / P + 1
  exact Nat.add_sub_cancel_left _ _

lemma rangeSize_ge (N P rank : Nat) (h : N % P ≤ rank) :
    rangeSize N P rank = N / P := by
  unfold rangeSize MPI.local_range
  rw [if_neg (Nat.not_lt.mpr h)]
  show rank * (N / P) + N % P + N / P - (rank * (N / P) + N % P) = N / P
  exact Nat.add_sub_cancel_left _ _

lemma rangeSize_eq_sub (N P rank : Nat) :
    rangeSize N P rank = rankStart N P (rank + 1) - rankStart N P rank := by
  unfold rangeSize
  rw [local_range_eq_rankStart]

lemma sum_range_sub_telescope (f : Nat → Nat) (hm : ∀ a b : Nat, a ≤ b → f a ≤ f b) :
    ∀ m : Nat, Finset.sum (Finset.range m) (fun k => f (k + 1) - f k) = f m - f 0 := by
  intro m
  induction m with
  | zero => simp
  | succ m ih =>
    rw [Finset.sum_range_succ, ih]
    have h1 := hm 0 m (Nat.zero_le m)
    have h2 := hm m (m + 1) (Nat.le_succ m)
    omega

lemma ceilDiv_of_mod_pos (N P : Nat) (hP : 0 < P) (hr : 0 < N % P) :
    (N + P - 1) / P = N / P + 1 := by
  have hd : P * (N / P) + N % P = N := Nat.div_add_mod N P
  have hrP : N % P < P := Nat.mod_lt N hP
  have e1 : N + P - 1 = (N % P - 1) + (N / P + 1) * P := by
    have e2 : (N / P + 1) * P = (N / P) * P + P := Nat.succ_mul _ _
    have e3 : (N / P) * P = P * (N / P) := Nat.mul_comm _ _
    omega
  rw [e1, Nat.add_mul_div_right _ _ hP, Nat.div_eq_of_lt (by omega)]
  omega

lemma list_map_range_getD (l : List Nat) :
    (List.range l.length).map (fun i => l.getD i 0) = l := by
  induction l with
  | nil => simp
  | cons x xs ih =>
    rw [List.length_cons, List.range_succ_eq_map, List.map_cons, List.map_map]
    have h1 : (fun i => (x :: xs).getD i 0) ∘ Nat.succ = fun i => xs.getD i 0 := by
      funext i
      simp [List.getD_cons_succ]
    rw [h1, ih]
    simp

/-- Claim C1: for every N ≥ 0, P ≥ 1 and every global index i in [0, N), the
rank returned by index_owner is the unique rank below P whose local_range
contains i: i lies in that rank's range and in no other rank's range. -/
theorem index_owner_unique_rank (N P i : Nat) (hP : 1 ≤ P) (hi : i < N) :
    ∃ w, MPI.index_owner i N P = Except.ok w ∧ w < P ∧
      inRange i (MPI.local_range N P w) ∧
      ∀ rk, rk < P → inRange i (MPI.local_range N P rk) → rk = w := by
  obtain ⟨hwP, hmem⟩ := owner_spec i N P hP hi
  refine ⟨MPI.owner_calc i N P, ?_, hwP, hmem, ?_⟩
  · unfold MPI.index_owner
    rw [if_pos hi]
  · intro rk _ hr
    exact inRange_unique N P i rk _ hr hmem

/-- Claim C1 witness: at N = 10, P = 3, i = 7 the hypotheses hold and the
theorem applies (the owning rank is 2, as the spec's scenario states). -/
theorem index_owner_unique_rank_witness :
    ∃ w, MPI.index_owner 7 10 3 = Except.ok w ∧ w < 3 ∧
      inRange 7 (MPI.local_range 10 3 w) ∧
      ∀ rk, rk < 3 → inRange 7 (MPI.local_range 10 3 rk) → rk = w :=
  index_owner_unique_rank 10 3 7 (by decide) (by decide)

/-- Claim C2: for every N ≥ 0 and P ≥ 1, the P half-open ranges local_range
N P rank, rank = 0..P-1, tile [0, N) exactly: every range stays within N, every
index below N lies in exactly one range, the sizes sum to N, any two sizes
differ by at most one, the first N mod P ranks hold ⌈N/P⌉ = (N+P-1)/P indices
and the remaining ranks hold ⌊N/P⌋ = N/P indices. -/
theorem local_range_tiles (N P : Nat) (hP : 1 ≤ P) :
    (∀ rk, rk < P → (MPI.local_range N P rk).2 ≤ N) ∧
    (∀ i, i < N → ∃ rk, rk < P ∧ inRange i (MPI.local_range N P rk) ∧
      ∀ rk2, rk2 < P → inRange i (MPI.local_range N P rk2) → rk2 = rk) ∧
    Finset.sum (Finset.range P) (fun rk => rangeSize N P rk) = N ∧
    (∀ rk1 rk2, rk1 < P → rk2 < P → rangeSize N P rk1 ≤ rangeSize N P rk2 + 1) ∧
    (∀ rk, rk < N % P → rangeSize N P rk = (N + P - 1) / P) ∧
    (∀ rk, N % P ≤ rk → rk < P → rangeSize N P rk = N / P) := by
  refine ⟨?_, ?_, ?_, ?_, ?_, ?_⟩
  · intro rk hrk
    have hm := rankStart_mono N P (show rk + 1 ≤ P from hrk)
    rw [rankStart_last N P hP] at hm
    rw [local_range_eq_rankStart]
    exact hm
  · intro i hi
    obtain ⟨hwP, hmem⟩ := owner_spec i N P hP hi
    exact ⟨_, hwP, hmem, fun rk2 _ h2 => inRange_unique N P i rk2 _ h2 hmem⟩
  · have hs : ∀ rk ∈ Finset.range P,
        rangeSize N P rk = rankStart N P (rk + 1) - rankStart N P rk :=
      fun rk _ => rangeSize_eq_sub N P rk
    rw [Finset.sum_congr rfl hs,
      sum_range_sub_telescope (rankStart N P) (fun a b h => rankStart_mono N P h) P,
      rankStart_zero, rankStart_last N P hP]
    exact Nat.sub_zero N
  · intro rk1 rk2 _ _
    rcases Nat.lt_or_ge rk1 (N % P) with c1 | c1
    · rw [rangeSize_lt N P rk1 c1]
      rcases Nat.lt_or_ge rk2 (N % P) with c2 | c2
      · rw [rangeSize_lt N P rk2 c2]
        exact Nat.le_succ _
      · rw [rangeSize_ge N P rk2 c2]
    · rw [rangeSize_ge N P rk1 c1]
      rcases Nat.lt_or_ge rk2 (N % P) with c2 | c2
      · rw [rangeSize_lt N P rk2 c2]
        exact Nat.le_succ_of_le (Nat.le_succ _)
      · rw [rangeSize_ge N P rk2 c2]
        exact Nat.le_succ _
  · intro rk hrk
    rw [rangeSize_lt N P rk hrk, ceilDiv_of_mod_pos N P hP (Nat.pos_of_ne_zero (by omega))]
  · intro rk h1 _
    exact rangeSize_ge N P rk h1

/-- Claim C2 witness: N = 10, P = 3 (the spec's scenario: ranges
[0,4), [4,7), [7,10)). -/
theorem local_range_tiles_witness :
    1 ≤ 3 ∧
    ((∀ rk, rk < 3 → (MPI.local_range 10 3 rk).2 ≤ 10) ∧
     (∀ i, i < 10 → ∃ rk, rk < 3 ∧ inRange i (MPI.local_range 10 3 rk) ∧
       ∀ rk2, rk2 < 3 → inRange i (MPI.local_range 10 3 rk2) → rk2 = rk) ∧
     Finset.sum (Finset.range 3) (fun rk => rangeSize 10 3 rk) = 10 ∧
     (∀ rk1 rk2, rk1 < 3 → rk2 < 3 → rangeSize 10 3 rk1 ≤ rangeSize 10 3 rk2 + 1) ∧
     (∀ rk, rk < 10 % 3 → rangeSize 10 3 rk = (10 + 3 - 1) / 3) ∧
     (∀ rk, 10 % 3 ≤ rk → rk < 3 → rangeSize 10 3 rk = 10 / 3)) :=
  ⟨by decide, local_range_tiles 10 3 (by decide)⟩

/-- Claim C3: calling index_owner with i ≥ N fails with the OutOfRange error
(the source's `assert(index < N)`); it does not return a rank. -/
theorem index_owner_out_of_range (i N P : Nat) (h : N ≤ i) :
    MPI.index_owner i N P = Except.error MPIError.OutOfRange := by
  unfold MPI.index_owner
  rw [if_neg (Nat.not_lt.mpr h)]

/-- Claim C3 witness: i = 5, N = 3, P = 2. -/
theorem index_owner_out_of_range_witness :
    3 ≤ 5 ∧ MPI.index_owner 5 3 2 = Except.error MPIError.OutOfRange :=
  ⟨by decide, index_owner_out_of_range 5 3 2 (by decide)⟩

/-- Claim C4 (the code at the failing input): the sender's length check does
fail with SizeMismatch (P = 3, array length 2, and P = 2, array length 1), but
for P = 2 with a correctly sized array [1, 2] the call passes
sendcount = values.size() = 2 to MPI_Scatter against recvcount 1, an erroneous
MPI call (truncation), so rank r is not delivered values[r] as the claim
states. -/
theorem scatter_sendcount_mismatch :
    (MPI.scatter [[1, 2], [0]] 0).result = Except.error MPIError.Truncate ∧
    (MPI.scatter [[1, 2], [0]] 0).result ≠ Except.ok [[1], [2]] ∧
    (MPI.scatter [[1, 2], [0], [0]] 0).result = Except.error MPIError.SizeMismatch ∧
    (MPI.scatter [[1], [0]] 0).result = Except.error MPIError.SizeMismatch := by
  refine ⟨rfl, ?_, rfl, rfl⟩
  decide

/-- Claim C5: all-gather requires every rank's array to have length exactly P
(else the fatal SizeMismatch, before any fabric operation), reads each rank's
contribution from its own slot, and replaces every rank's array by the same
rank-ordered sequence of all P contributions. -/
theorem gather_replaces_all (world : List (List Nat)) :
    ((∃ v, v ∈ world ∧ v.length ≠ world.length) →
      (MPI.gather world).result = Except.error MPIError.SizeMismatch ∧
      (MPI.gather world).ops = []) ∧
    ((∀ v ∈ world, v.length = world.length) →
      ∃ out, (MPI.gather world).result = Except.ok out ∧
        out.length = world.length ∧
        ∀ rk, rk < world.length →
          (out.getD rk []).length = world.length ∧
          ∀ k, k < world.length →
            (out.getD rk []).getD k 0 = (world.getD k []).getD k 0) := by
  constructor
  · rintro ⟨v, hv, hne⟩
    have hnall : ¬ ∀ u ∈ world, u.length = world.length := fun hall => hne (hall v hv)
    simp only [MPI.gather]
    rw [if_neg hnall]
    exact ⟨rfl, rfl⟩
  · intro hall
    simp only [MPI.gather]
    rw [if_pos hall]
    refine ⟨_, rfl, by simp, ?_⟩
    intro rk hrk
    have h1 : ((world.map (fun _ =>
        (List.range world.length).map (fun j => (world.getD j []).getD j 0))).getD rk []) =
        (List.range world.length).map (fun j => (world.getD j []).getD j 0) := by
      rw [List.getD_eq_getElem?_getD, List.getElem?_map, List.getElem?_eq_getElem hrk]
      rfl
    rw [h1]
    refine ⟨by simp, ?_⟩
    intro k hk
    rw [List.getD_eq_getElem?_getD, List.getElem?_map, List.getElem?_range hk]
    rfl

/-- Claim C6 counterexample: with P = 1 the collectives do not avoid the
fabric: scatter, gather and global_maximum all issue fabric operations
(communicator duplication and an MPI collective call), and in the no-MPI build
gather and global_maximum fail instead of acting as copy and identity. -/
theorem collectives_touch_fabric_at_p1 :
    (MPI.scatter [[5]] 0).ops ≠ [] ∧
    (MPI.gather [[7]]).ops ≠ [] ∧
    (MPI.global_maximum [4]).ops ≠ [] ∧
    MPI.gatherNoMPI [5] ≠ Except.ok [5] ∧
    MPI.globalMaximumNoMPI 3 ≠ Except.ok 3 := by
  refine ⟨by decide, ?_, by decide, by decide, by decide⟩
  decide

/-- Claim C6 as amended: with P = 1 the MPI-build collectives produce the
copy/identity results but still duplicate the communicator and call the
fabric, and the no-MPI build's gather and global_maximum fail with the
requires-MPI error rather than short-circuiting. -/
theorem collectives_no_short_circuit (v s : Nat) (l : List Nat) :
    (MPI.scatter [[v]] 0).result = Except.ok [[v]] ∧
    (MPI.scatter [[v]] 0).ops =
      [FabricOp.commDup, FabricOp.scatterCall, FabricOp.commFree] ∧
    (MPI.gather [[v]]).result = Except.ok [[v]] ∧
    (MPI.gather [[v]]).ops =
      [FabricOp.commDup, FabricOp.allgatherCall, FabricOp.commFree] ∧
    (MPI.global_maximum [v]).result = Except.ok [v] ∧
    (MPI.global_maximum [v]).ops =
      [FabricOp.commDup, FabricOp.allreduceCall, FabricOp.commFree] ∧
    MPI.gatherNoMPI l = Except.error MPIError.FabricRequired ∧
    MPI.globalMaximumNoMPI s = Except.error MPIError.FabricRequired := by
  refine ⟨rfl, rfl, rfl, rfl, ?_, rfl, rfl, rfl⟩
  simp [MPI.global_maximum]

/-- Claim C7 counterexample: at P = 1 the mesh constructor does not succeed,
so the local record does not equal the extracted global record; it fails with
ShouldNotBeCalled. -/
theorem local_mesh_p1_counterexample :
    LocalMeshData.fromMesh 1 0 meshEx = Except.error MPIError.ShouldNotBeCalled ∧
    LocalMeshData.fromMesh 1 0 meshEx ≠
      Except.ok (extract_mesh_data LocalMeshData.empty meshEx) := by
  refine ⟨rfl, ?_⟩
  intro h
  exact Except.noConfusion h

/-- Claim C7 as amended: constructing the driver's local record from a mesh
fails unconditionally with the ShouldNotBeCalled error (LocalMeshData.cpp:30)
before any collective call; moreover at P = 1 the broadcaster and receiver
predicates are both false, and the receive path would leave a record
unchanged, so no aliasing of the local record to the global record exists. -/
theorem localMeshData_constructor_always_fails (P rank : Nat) (m : Mesh) :
    LocalMeshData.fromMesh P rank m = Except.error MPIError.ShouldNotBeCalled ∧
    MPI.is_broadcaster 1 0 = false ∧
    MPI.is_receiver 1 0 = false ∧
    (∀ d : LocalMeshData, receive_mesh_data d = d) :=
  ⟨rfl, rfl, rfl, fun _ => rfl⟩

/-- Claim C8 counterexample: under P = 2 the driver construction fails on both
ranks, and the receive path delivers nothing (a worker's record stays the
default-constructed empty record, which differs from the extracted global
record of the example mesh), so the claimed round-trip does not reproduce the
mesh. -/
theorem round_trip_p2_counterexample :
    LocalMeshData.fromMesh 2 0 meshEx = Except.error MPIError.ShouldNotBeCalled ∧
    LocalMeshData.fromMesh 2 1 meshEx = Except.error MPIError.ShouldNotBeCalled ∧
    receive_mesh_data LocalMeshData.empty ≠ extract_mesh_data LocalMeshData.empty meshEx := by
  refine ⟨rfl, rfl, ?_⟩
  decide

/-- Claim C8 as amended: the extraction step alone is lossless — it reproduces
the mesh's vertex coordinates, global vertex indices and cell connectivity
exactly — but the redistribution is unimplemented: broadcast_mesh_data and
receive_mesh_data have empty bodies (they transfer nothing and leave the
record unchanged), so no data reaches the other ranks. -/
theorem extraction_lossless_redistribution_noop (d : LocalMeshData) (m : Mesh) :
    (extract_mesh_data d m).vertex_coordinates =
      m.vertices.map (fun v => (List.range m.gdim).map (fun i => v.coords i)) ∧
    (extract_mesh_data d m).vertex_indices = m.vertices.map (fun v => v.index) ∧
    (extract_mesh_data d m).cell_vertices = m.cells ∧
    broadcast_mesh_data d = d ∧
    receive_mesh_data d = d := by
  refine ⟨rfl, rfl, ?_, rfl, rfl⟩
  show m.cells.map (fun c => (List.range c.length).map (fun i => c.getD i 0)) = m.cells
  have h : ∀ c ∈ m.cells, (List.range c.length).map (fun i => c.getD i 0) = id c :=
    fun c _ => list_map_range_getD c
  rw [List.map_congr_left h, List.map_id]

/-- Claim C9: after extract_mesh_data, regardless of the record's prior
contents, vertex_coordinates has num_global_vertices entries each of length
gdim, vertex_indices has num_global_vertices entries, cell_vertices has
num_global_cells entries, and the scalars equal the mesh's dimensions and
counts. -/
theorem extract_mesh_data_postcondition (d : LocalMeshData) (m : Mesh) :
    (extract_mesh_data d m).vertex_coordinates.length =
      (extract_mesh_data d m).num_global_vertices ∧
    (∀ c ∈ (extract_mesh_data d m).vertex_coordinates,
      c.length = (extract_mesh_data d m).gdim) ∧
    (extract_mesh_data d m).vertex_indices.length =
      (extract_mesh_data d m).num_global_vertices ∧
    (extract_mesh_data d m).cell_vertices.length =
      (extract_mesh_data d m).num_global_cells ∧
    (extract_mesh_data d m).gdim = m.gdim ∧
    (extract_mesh_data d m).tdim = m.tdim ∧
    (extract_mesh_data d m).num_global_vertices = m.vertices.length ∧
    (extract_mesh_data d m).num_global_cells = m.cells.length ∧
    extract_mesh_data d m = extract_mesh_data (LocalMeshData.clear d) m := by
  refine ⟨?_, ?_, ?_, ?_, rfl, rfl, rfl, rfl, rfl⟩
  · simp [extract_mesh_data]
  · intro c hc
    simp only [extract_mesh_data] at hc ⊢
    obtain ⟨v, _, rfl⟩ := List.mem_map.mp hc
    simp
  · simp [extract_mesh_data]
  · simp [extract_mesh_data]

/-- Claim C10: is_broadcaster and is_receiver are never both true; with P = 1
both are false; with P > 1 the broadcaster is exactly rank 0, the receivers
are exactly the ranks above 0, and for every rank exactly one of the two
holds. -/
theorem broadcaster_receiver_roles (P rank : Nat) (hrank : rank < P) :
    (¬ (MPI.is_broadcaster P rank = true ∧ MPI.is_receiver P rank = true)) ∧
    (P = 1 → MPI.is_broadcaster P rank = false ∧ MPI.is_receiver P rank = false) ∧
    (1 < P → (MPI.is_broadcaster P rank = true ↔ rank = 0) ∧
      (MPI.is_receiver P rank = true ↔ 0 < rank) ∧
      (MPI.is_broadcaster P rank = true ↔ ¬ MPI.is_receiver P rank = true)) := by
  refine ⟨?_, ?_, ?_⟩
  · rintro ⟨hb, hr⟩
    simp [MPI.is_broadcaster, MPI.is_receiver] at hb hr
    omega
  · intro hP1
    subst hP1
    constructor <;> simp [MPI.is_broadcaster, MPI.is_receiver]
  · intro hP
    refine ⟨?_, ?_, ?_⟩
    · simp [MPI.is_broadcaster, hP]
    · simp [MPI.is_receiver, hP]
    · simp [MPI.is_broadcaster, MPI.is_receiver, hP]

/-- Claim C10 witness: P = 3, rank = 1. -/
theorem broadcaster_receiver_roles_witness :
    1 < 3 ∧
    ((¬ (MPI.is_broadcaster 3 1 = true ∧ MPI.is_receiver 3 1 = true)) ∧
     (3 = 1 → MPI.is_broadcaster 3 1 = false ∧ MPI.is_receiver 3 1 = false) ∧
     (1 < 3 → (MPI.is_broadcaster 3 1 = true ↔ 1 = 0) ∧
       (MPI.is_receiver 3 1 = true ↔ 0 < 1) ∧
       (MPI.is_broadcaster 3 1 = true ↔ ¬ MPI.is_receiver 3 1 = true))) :=
  ⟨by decide, broadcaster_receiver_roles 3 1 (by decide)⟩

end dolfin
